import Mathlib

/-!
Shallow embedding of the PFC forecasting core (python-model) and proofs
checking the specification claims against it.

Source layout mirrored here:
  app/models/monte_carlo.py  -> MonteCarloSimulator (simulate_paths,
                                calculate_percentiles, calculate_risk_metrics)
  app/models/garch.py        -> GARCHModel (calculate_returns,
                                estimate_volatility, estimate_drift)
  app/services/forecast_service.py -> ForecastService (generate_forecast,
                                _forecast_single_ticker, _default_forecast,
                                _risk_to_score, _score_to_risk)
  app/main.py                -> the /predict endpoint handler

Modelling conventions:
  * Machine floats are idealised as real numbers; numpy percentile and
    clipping semantics are translated literally.
  * The global numpy random source is made explicit as a stream of reals
    (`Rng`).  np.random.normal(0,1) consumes one stream value directly;
    np.random.uniform(a,b) maps one stream value into [a,b].
  * The `arch` library GARCH fit (external to the repository) is an oracle
    parameter `FitOracle`: on success it yields the one-step-ahead
    conditional variance forecast, on failure the exception branch is taken.
  * Python exceptions caught by try/except blocks whose cause is outside
    the embedded code (per-ticker failures in the orchestrator, internal
    simulation failures) are made explicit as parameters (`exc`, an
    `Option` shock source).
-/

namespace PFC

/-- np.clip x a b = minimum(b, maximum(a, x)). -/
def npClip {K : Type _} [LinearOrder K] (x a b : K) : K := min b (max a x)

/-- Clamp a real into [0,1]; used to model a uniform draw faithfully:
any stream value yields some point of [a,b], and every point of [a,b]
is reachable. -/
def clamp01 (x : ℝ) : ℝ := max 0 (min 1 x)

/-- Explicit model of the process-wide numpy random stream. -/
structure Rng where
  seq : ℕ → ℝ

/-- Advance the stream by `n` consumed draws. -/
def Rng.drop (r : Rng) (n : ℕ) : Rng := ⟨fun k => r.seq (k + n)⟩

/-- np.random.normal(0, 1, n): `n` standard-normal draws, taken from the
stream in order. -/
def Rng.take (r : Rng) (n : ℕ) : List ℝ × Rng :=
  ((List.range n).map r.seq, r.drop n)

/-- np.random.uniform(a, b): one draw mapped into [a,b]. -/
def Rng.uniform (r : Rng) (a b : ℝ) : ℝ × Rng :=
  (a + (b - a) * clamp01 (r.seq 0), r.drop 1)

section Percentile

variable {K : Type _} [LinearOrderedField K] [FloorRing K]

/-- Linear-interpolation lookup at virtual index `h` into the sorted list
`s`: numpy's interpolation step of np.percentile(method =
linear). -/
def interpAt (s : List K) (h : K) : K :=
  let i : ℕ := (Int.toNat ⌊h⌋) ⊓ (s.length - 1)
  let j : ℕ := (i + 1) ⊓ (s.length - 1)
  s.getD i 0 + (h - (i : K)) * (s.getD j 0 - s.getD i 0)

/-- np.percentile(l, q) with the default linear interpolation:
sort ascending, then interpolate at virtual index q/100 * (n-1). -/
def npPercentile (l : List K) (q : K) : K :=
  let s := List.insertionSort (· ≤ ·) l
  if s.length = 0 then 0
  else interpAt s (q * ((s.length - 1 : ℕ) : K) / 100)

/-- Output record of MonteCarloSimulator.calculate_percentiles
(schemas.Percentiles). -/
structure Percentiles (K : Type _) where
  p5 : K
  p50 : K
  p95 : K
deriving DecidableEq

/-- MonteCarloSimulator.calculate_percentiles. -/
def calculate_percentiles (simulated_prices : List K) : Percentiles K :=
  { p5 := npPercentile simulated_prices 5
  , p50 := npPercentile simulated_prices 50
  , p95 := npPercentile simulated_prices 95 }

end Percentile

section Risk

variable {K : Type _} [LinearOrderedField K]

/-- Output record of MonteCarloSimulator.calculate_risk_metrics. -/
structure RiskMetrics (K : Type _) where
  risk : String
  expected_return : K
  downside_risk : K
  upside_potential : K
  volatility : K

/-- MonteCarloSimulator.calculate_risk_metrics. -/
def calculate_risk_metrics (current_price : K) (percentiles : Percentiles K)
    (volatility : K) : RiskMetrics K :=
  let expected_return := (percentiles.p50 - current_price) / current_price
  let downside_risk := (current_price - percentiles.p5) / current_price
  let upside_potential := (percentiles.p95 - current_price) / current_price
  let risk_level : String :=
    if expected_return > 0.02 ∧ volatility < 0.05 then "green"
    else if expected_return < -0.02 ∨ volatility > 0.10 then "red"
    else "yellow"
  { risk := risk_level
  , expected_return := expected_return
  , downside_risk := downside_risk
  , upside_potential := upside_potential
  , volatility := volatility }

end Risk

/-- MonteCarloSimulator ctor state: num_simulations, forecast_hours and the
derived time_fraction = forecast_hours / (6.5 * 252). -/
structure MCSim where
  num_simulations : ℕ
  forecast_hours : ℝ
  time_fraction : ℝ

/-- MonteCarloSimulator.__init__. -/
noncomputable def MCSim.init (n : ℕ) (hours : ℝ) : MCSim :=
  { num_simulations := n
  , forecast_hours := hours
  , time_fraction := hours / (6.5 * 252) }

/-- MonteCarloSimulator.simulate_paths.  The shocks argument carries the
np.random.normal(0,1,N) draws; `none` models the except-branch taken on
an internal failure, which returns np.full(N, current_price). -/
noncomputable def simulate_paths (mc : MCSim) (current_price drift volatility : ℝ)
    (shocks : Option (List ℝ)) : List ℝ :=
  match shocks with
  | some zs =>
      let dt := mc.time_fraction
      let drift_adjusted := drift * dt
      let vol_adjusted := volatility * Real.sqrt dt
      zs.map (fun z =>
        current_price * Real.exp ((drift_adjusted - 0.5 * vol_adjusted ^ 2)
          + vol_adjusted * z))
  | none => List.replicate mc.num_simulations current_price

/-- GARCHModel instance state: the `model` and `fitted_model` attributes,
abstracted to the data they were built from (the scaled return series and
the fit output). -/
structure GARCHState where
  model : Option (List ℝ)
  fitted_model : Option ℝ

/-- GARCHModel.__init__. -/
def GARCHState.init : GARCHState := ⟨none, none⟩

/-- Oracle for the external `arch` library fit: given the scaled returns,
either the one-step-ahead conditional variance forecast, or failure. -/
def FitOracle : Type := List ℝ → Except Unit ℝ

/-- np.std (population standard deviation, ddof = 0). -/
noncomputable def sampleStd (xs : List ℝ) : ℝ :=
  let n : ℝ := xs.length
  let mean := xs.sum / n
  Real.sqrt ((xs.map (fun x => (x - mean) ^ 2)).sum / n)

/-- GARCHModel.calculate_returns: np.diff(np.log(prices)), empty when
fewer than two prices. -/
noncomputable def calculate_returns (prices : List ℝ) : List ℝ :=
  if prices.length < 2 then []
  else
    let logs := prices.map Real.log
    List.zipWith (fun a b => b - a) logs logs.tail

/-- GARCHModel.estimate_volatility, with the instance-state mutation made
explicit: returns the updated (model, fitted_model) state next to the
estimate.  Mirrors the source: the < 30 branch touches no attribute; the
primary branch assigns self.model before fitting, and self.fitted_model
only once the fit has succeeded. -/
noncomputable def estimate_volatility (st : GARCHState) (returns : List ℝ)
    (fit : FitOracle) : GARCHState × ℝ :=
  if returns.length < 30 then
    (st, max (sampleStd returns * Real.sqrt 252) 0.10)
  else
    let returns_pct := returns.map (· * 100)
    let st1 : GARCHState := { st with model := some returns_pct }
    match fit returns_pct with
    | .ok variance =>
        let volatility := Real.sqrt variance
        let volatility_annual := npClip (volatility / 100 * Real.sqrt 252) 0.02 1.0
        ({ st1 with fitted_model := some variance }, volatility_annual)
    | .error _ =>
        (st1, max (sampleStd returns * Real.sqrt 252) 0.15)

/-- The value computed by GARCHModel.estimate_volatility (it does not
depend on the incoming instance state; see
`estimate_volatility_state_irrelevant`). -/
noncomputable def estimate_volatility_val (returns : List ℝ) (fit : FitOracle) : ℝ :=
  (estimate_volatility GARCHState.init returns fit).2

/-- np.linspace a b n. -/
noncomputable def linspace (a b : ℝ) (n : ℕ) : List ℝ :=
  (List.range n).map (fun i => a + i * ((b - a) / ((n : ℝ) - 1)))

/-- np.average xs with weights ws. -/
noncomputable def npAverage (xs ws : List ℝ) : ℝ :=
  (List.zipWith (· * ·) ws xs).sum / ws.sum

/-- GARCHModel.estimate_drift. -/
noncomputable def estimate_drift (returns : List ℝ)
    (use_exponential_weighting : Bool := true) : ℝ :=
  if returns.length = 0 then 0
  else
    let mean_return :=
      if use_exponential_weighting ∧ returns.length > 5 then
        let weights := (linspace (-1) 0 returns.length).map Real.exp
        let weights_n := weights.map (· / weights.sum)
        npAverage returns weights_n
      else returns.sum / (returns.length : ℝ)
    npClip (mean_return * 252) (-0.50) 1.0

/-- schemas.TickerForecast. -/
structure TickerForecast where
  symbol : String
  currentPrice : ℝ
  forecast : Percentiles ℝ
  volatility : ℝ
  risk : String

/-- The generate_forecast return dictionary. -/
structure ForecastOutput where
  forecasts : List TickerForecast
  risk : String

/-- schemas.ForecastRequest; the two dictionaries become partial maps. -/
structure ForecastRequest where
  tickers : List String
  currentPrices : String → Option ℝ
  historicalData : String → Option (List ℝ)

/-- ForecastService.__init__: a fresh GARCHModel and a configured
MonteCarloSimulator. -/
noncomputable def ForecastService.init (num_simulations : ℕ)
    (forecast_hours : ℝ) : GARCHState × MCSim :=
  (GARCHState.init, MCSim.init num_simulations forecast_hours)

/-- ForecastService._risk_to_score (mapping.get default 2). -/
def risk_to_score (risk : String) : ℕ :=
  if risk = "green" then 1
  else if risk = "yellow" then 2
  else if risk = "red" then 3
  else 2

/-- ForecastService._score_to_risk. -/
noncomputable def score_to_risk (score : ℝ) : String :=
  if score < 1.5 then "green"
  else if score < 2.5 then "yellow"
  else "red"

/-- One Geometric Brownian Motion step of the synthetic-history loop in
ForecastService._default_forecast: drift 0.05, dt = 1/252. -/
noncomputable def gbmStep (vol last shock : ℝ) : ℝ :=
  last * Real.exp ((0.05 - 0.5 * vol ^ 2) * (1 / 252)
    + vol * Real.sqrt (1 / 252) * shock)

/-- The synthetic price history of ForecastService._default_forecast:
starts with [current_price] and appends one GBM step per shock (the code
draws 60 shocks), so the FIRST element is the anchor price. -/
noncomputable def syntheticHistory (current_price vol : ℝ) (shocks : List ℝ) :
    List ℝ :=
  List.scanl (fun last z => gbmStep vol last z) current_price shocks

/-- The working current price after the first fallback in
ForecastService._forecast_single_ticker: when the supplied price compares
equal to 0.0 and history is non-empty, the last historical price is
substituted; otherwise the supplied price (of any sign) is kept. -/
noncomputable def workingPrice (current_price : ℝ) (historical_prices : List ℝ) : ℝ :=
  if current_price = 0 ∧ historical_prices ≠ [] then
    historical_prices.getLastD 0
  else current_price

/-- Placeholder returned only when the recursion fuel runs out.  The
Python recursion _forecast_single_ticker -> _default_forecast ->
_forecast_single_ticker has depth at most 3 (a synthetic history always
has 61 points, and only a zero anchor can force a second fallback, which
re-enters at the fixed price 100.0), so every top-level call below is
made with fuel 3 and never reaches this value. -/
def fuelOut (ticker : String) (current_price : ℝ) : TickerForecast :=
  { symbol := ticker
  , currentPrice := current_price
  , forecast := { p5 := 0, p50 := 0, p95 := 0 }
  , volatility := 0
  , risk := "unreachable" }

/-- Steps 1..6 of ForecastService._forecast_single_ticker once the data
checks have passed: volatility, drift, Monte Carlo batch (consuming
num_simulations normal draws), percentiles, risk metrics, response. -/
noncomputable def run_pipeline (mc : MCSim) (fit : FitOracle) (ticker : String)
    (current_price : ℝ) (returns : List ℝ) (rng : Rng) : TickerForecast × Rng :=
  let volatility := estimate_volatility_val returns fit
  let drift := estimate_drift returns true
  let shocks := (rng.take mc.num_simulations).1
  let rng1 := (rng.take mc.num_simulations).2
  let simulated_prices := simulate_paths mc current_price drift volatility (some shocks)
  let percentiles := calculate_percentiles simulated_prices
  let risk_metrics := calculate_risk_metrics current_price percentiles volatility
  ({ symbol := ticker
   , currentPrice := current_price
   , forecast := percentiles
   , volatility := volatility
   , risk := risk_metrics.risk }, rng1)

set_option maxHeartbeats 1000000 in
mutual

/-- ForecastService._forecast_single_ticker.  The fuel argument bounds the
mutual recursion through _default_forecast (see `fuelOut`). -/
noncomputable def forecast_single_ticker (mc : MCSim) (fit : FitOracle) :
    ℕ → String → ℝ → List ℝ → Rng → TickerForecast × Rng
  | 0, ticker, current_price, _, rng => (fuelOut ticker current_price, rng)
  | Nat.succ fuel, ticker, current_price, historical_prices, rng =>
    let cp := workingPrice current_price historical_prices
    if cp = 0 then default_forecast mc fit fuel ticker 100.0 rng
    else if historical_prices.length < 2 then
      default_forecast mc fit fuel ticker cp rng
    else
      let returns := calculate_returns historical_prices
      if returns.length = 0 then default_forecast mc fit fuel ticker cp rng
      else run_pipeline mc fit ticker cp returns rng

/-- ForecastService._default_forecast: draw a volatility uniformly from
[0.15, 0.35] and 60 standard-normal shocks, synthesize the GBM history,
and re-enter _forecast_single_ticker on it. -/
noncomputable def default_forecast (mc : MCSim) (fit : FitOracle) :
    ℕ → String → ℝ → Rng → TickerForecast × Rng
  | fuel, ticker, current_price, rng =>
    let (random_vol, rng1) := rng.uniform 0.15 0.35
    let (shocks, rng2) := rng1.take 60
    let prices := syntheticHistory current_price random_vol shocks
    forecast_single_ticker mc fit fuel ticker current_price prices rng2

end

/-- The per-ticker loop of ForecastService.generate_forecast.  `exc t`
models an uncaught exception escaping the try-block for ticker `t`
(PerTickerFailure); the except-branch then builds the fallback entry from
current_prices.get(ticker, 100.0) and records a yellow risk score. -/
noncomputable def generate_forecast_go (mc : MCSim) (fit : FitOracle)
    (exc : String → Bool) (current_prices : String → Option ℝ)
    (historical_data : String → Option (List ℝ)) :
    List String → Rng → List TickerForecast × List ℕ × Rng
  | [], rng => ([], [], rng)
  | ticker :: rest, rng =>
    let step : TickerForecast × ℕ × Rng :=
      if exc ticker then
        let res := default_forecast mc fit 3 ticker
          ((current_prices ticker).getD 100.0) rng
        (res.1, 2, res.2)
      else
        let res := forecast_single_ticker mc fit 3 ticker
          ((current_prices ticker).getD 0.0)
          ((historical_data ticker).getD []) rng
        (res.1, risk_to_score res.1.risk, res.2)
    let rest_res :=
      generate_forecast_go mc fit exc current_prices historical_data rest step.2.2
    (step.1 :: rest_res.1, step.2.1 :: rest_res.2.1, rest_res.2.2)

/-- ForecastService.generate_forecast: run every ticker, then aggregate
the risk scores (np.mean, defaulting to 2 on an empty list) into the
overall portfolio risk. -/
noncomputable def generate_forecast (mc : MCSim) (fit : FitOracle)
    (exc : String → Bool) (tickers : List String)
    (current_prices : String → Option ℝ)
    (historical_data : String → Option (List ℝ)) (rng : Rng) : ForecastOutput :=
  let res := generate_forecast_go mc fit exc current_prices historical_data tickers rng
  let forecasts := res.1
  let risk_scores := res.2.1
  let avg_risk_score : ℝ :=
    if risk_scores = [] then 2
    else ((risk_scores.map (fun s => (s : ℝ))).sum) / (risk_scores.length : ℝ)
  { forecasts := forecasts, risk := score_to_risk avg_risk_score }

/-- The required parameters of ForecastService.generate_forecast (none of
tickers, current_prices, historical_data has a default). -/
def generate_forecast_required_params : List String :=
  ["tickers", "current_prices", "historical_data"]

/-- The keyword arguments actually passed at the call site inside the
/predict handler in app/main.py (current_prices is omitted). -/
def predict_call_kwargs : List String :=
  ["tickers", "historical_data"]

/-- Required parameters left unbound by the /predict call. -/
def predict_missing_args : List String :=
  generate_forecast_required_params.filter
    (fun p => ¬ predict_call_kwargs.contains p)

/-- The /predict endpoint handler of app/main.py.  Python binds call
arguments before running the callee, so when a required parameter is
unbound the call raises TypeError; the handler's except-branch maps any
exception to HTTPException(status_code = 500, detail = str(e)).  The
ok-branch below is therefore unreachable: `predict_missing_args` is not
empty, and the placeholder empty mapping it would pass never matters. -/
noncomputable def predict (mc : MCSim) (fit : FitOracle) (exc : String → Bool)
    (rng : Rng) (request : ForecastRequest) : Except (ℕ × String) ForecastOutput :=
  if predict_missing_args.isEmpty then
    .ok (generate_forecast mc fit exc request.tickers (fun _ => none)
      request.historicalData rng)
  else
    .error (500,
      "TypeError: generate_forecast missing 1 required positional argument: current_prices")

/-- The all-zero random stream: every normal draw is 0 and every
uniform draw lands on the lower endpoint of its interval. -/
def zeroRng : Rng := ⟨fun _ => 0⟩

/-- Fit oracle for a run in which the arch GARCH fit raises
(e.g. fails to converge on a zero-variance return series). -/
def fit_always_fails : FitOracle := fun _ => .error ()

/-- Fit oracle for a run in which the arch GARCH fit succeeds with a
one-step conditional variance forecast of 1. -/
def fit_const_variance : FitOracle := fun _ => .ok 1

/-- The default service configuration of app/main.py:
10000 simulations, 24-hour horizon. -/
noncomputable def mc_default : MCSim := MCSim.init 10000 24

/-! ### Percentile interpolation lemmas -/

section PercentileTheory

variable {K : Type _} [LinearOrderedField K] [FloorRing K]

lemma getD_mono_of_sorted {s : List K} (hs : s.Sorted (· ≤ ·)) {i j : ℕ}
    (hij : i ≤ j) (hj : j < s.length) : s.getD i 0 ≤ s.getD j 0 := by
  rcases lt_or_eq_of_le hij with h | h
  · rw [List.getD_eq_get _ _ (lt_of_le_of_lt hij hj), List.getD_eq_get _ _ hj]
    exact List.pairwise_iff_get.1 hs ⟨i, lt_of_le_of_lt hij hj⟩ ⟨j, hj⟩ h
  · subst h; rfl

lemma interpAt_mono {s : List K} (hs : s.Sorted (· ≤ ·)) (hne : s ≠ [])
    {h₁ h₂ : K} (h0 : 0 ≤ h₁) (h12 : h₁ ≤ h₂)
    (h2 : h₂ ≤ ((s.length - 1 : ℕ) : K)) :
    interpAt s h₁ ≤ interpAt s h₂ := by
  have hn : 1 ≤ s.length := List.length_pos.2 hne
  have h0' : 0 ≤ h₂ := le_trans h0 h12
  have hf1nn : 0 ≤ ⌊h₁⌋ := Int.floor_nonneg.2 h0
  have hf2nn : 0 ≤ ⌊h₂⌋ := Int.floor_nonneg.2 h0'
  have hb2 : ⌊h₂⌋.toNat ≤ s.length - 1 := by
    have : ⌊h₂⌋ ≤ ((s.length - 1 : ℕ) : ℤ) := by
      have := Int.floor_le_floor (α := K) h2
      rwa [Int.floor_natCast] at this
    omega
  have hb1 : ⌊h₁⌋.toNat ≤ s.length - 1 := by
    have hff : ⌊h₁⌋ ≤ ⌊h₂⌋ := Int.floor_le_floor h12
    omega
  set i₁ : ℕ := ⌊h₁⌋.toNat ⊓ (s.length - 1) with hi₁
  set i₂ : ℕ := ⌊h₂⌋.toNat ⊓ (s.length - 1) with hi₂
  have hi₁' : i₁ = ⌊h₁⌋.toNat := by rw [hi₁, min_eq_left hb1]
  have hi₂' : i₂ = ⌊h₂⌋.toNat := by rw [hi₂, min_eq_left hb2]
  have hcast1 : ((⌊h₁⌋.toNat : ℕ) : K) = ((⌊h₁⌋ : ℤ) : K) := by
    rw [← Int.cast_natCast, Int.toNat_of_nonneg hf1nn]
  have hcast2 : ((⌊h₂⌋.toNat : ℕ) : K) = ((⌊h₂⌋ : ℤ) : K) := by
    rw [← Int.cast_natCast, Int.toNat_of_nonneg hf2nn]
  have hc₁ : (i₁ : K) ≤ h₁ := by
    rw [hi₁', hcast1]; exact Int.floor_le h₁
  have hc₂ : (i₂ : K) ≤ h₂ := by
    rw [hi₂', hcast2]; exact Int.floor_le h₂
  have hd₁ : h₁ < (i₁ : K) + 1 := by
    rw [hi₁', hcast1]; exact Int.lt_floor_add_one h₁
  set j₁ : ℕ := (i₁ + 1) ⊓ (s.length - 1) with hj₁
  set j₂ : ℕ := (i₂ + 1) ⊓ (s.length - 1) with hj₂
  have hij₁ : i₁ ≤ j₁ := by omega
  have hij₂ : i₂ ≤ j₂ := by omega
  have hj₁lt : j₁ < s.length := by omega
  have hj₂lt : j₂ < s.length := by omega
  have hd₁nn : 0 ≤ s.getD j₁ 0 - s.getD i₁ 0 :=
    sub_nonneg.2 (getD_mono_of_sorted hs hij₁ hj₁lt)
  have hd₂nn : 0 ≤ s.getD j₂ 0 - s.getD i₂ 0 :=
    sub_nonneg.2 (getD_mono_of_sorted hs hij₂ hj₂lt)
  show s.getD i₁ 0 + (h₁ - (i₁ : K)) * (s.getD j₁ 0 - s.getD i₁ 0)
    ≤ s.getD i₂ 0 + (h₂ - (i₂ : K)) * (s.getD j₂ 0 - s.getD i₂ 0)
  rcases eq_or_ne i₁ i₂ with he | hne'
  · have hjj : j₁ = j₂ := by rw [hj₁, hj₂, he]
    rw [he, hjj]
    have : (h₁ - (i₂ : K)) * (s.getD j₂ 0 - s.getD i₂ 0)
        ≤ (h₂ - (i₂ : K)) * (s.getD j₂ 0 - s.getD i₂ 0) := by
      apply mul_le_mul_of_nonneg_right _ hd₂nn
      linarith
    linarith
  · have hlt : i₁ < i₂ := by
      have hff : ⌊h₁⌋ ≤ ⌊h₂⌋ := Int.floor_le_floor h12
      have : i₁ ≤ i₂ := by omega
      omega
    have step1 : s.getD i₁ 0 + (h₁ - (i₁ : K)) * (s.getD j₁ 0 - s.getD i₁ 0)
        ≤ s.getD j₁ 0 := by
      have hγ : h₁ - (i₁ : K) ≤ 1 := by linarith
      have := mul_le_mul_of_nonneg_right hγ hd₁nn
      linarith
    have step2 : s.getD j₁ 0 ≤ s.getD i₂ 0 := by
      apply getD_mono_of_sorted hs _ (by omega)
      omega
    have step3 : s.getD i₂ 0 ≤ s.getD i₂ 0
        + (h₂ - (i₂ : K)) * (s.getD j₂ 0 - s.getD i₂ 0) := by
      have hγ : 0 ≤ h₂ - (i₂ : K) := by linarith
      nlinarith
    linarith

lemma npPercentile_mono (l : List K) {q₁ q₂ : K} (hq0 : 0 ≤ q₁)
    (hq : q₁ ≤ q₂) (hq2 : q₂ ≤ 100) :
    npPercentile l q₁ ≤ npPercentile l q₂ := by
  unfold npPercentile
  set s := List.insertionSort (· ≤ ·) l with hsdef
  by_cases hz : s.length = 0
  · simp [hz]
  · simp only [hz, if_false]
    have hs : s.Sorted (· ≤ ·) := List.sorted_insertionSort _ l
    have hne : s ≠ [] := by
      intro h
      rw [h] at hz
      exact hz rfl
    have hcast : (0 : K) ≤ ((s.length - 1 : ℕ) : K) := by positivity
    apply interpAt_mono hs hne
    · positivity
    · have h1 : q₁ * ((s.length - 1 : ℕ) : K) ≤ q₂ * ((s.length - 1 : ℕ) : K) :=
        mul_le_mul_of_nonneg_right hq hcast
      have h100 : (0:K) < 100 := by norm_num
      exact (div_le_div_iff_of_pos_right h100).2 h1
    · rw [div_le_iff (by norm_num : (0:K) < 100)]
      calc q₂ * ((s.length - 1 : ℕ) : K) ≤ 100 * ((s.length - 1 : ℕ) : K) :=
            mul_le_mul_of_nonneg_right hq2 hcast
        _ = ((s.length - 1 : ℕ) : K) * 100 := by ring

end PercentileTheory

/-! ### Claim C8 -/

/-- Claim C8: for every simulation batch with at least 2 elements, the
percentile summarizer returns the standard linear-interpolation
percentiles p5/p50/p95 over the batch, they satisfy p5 <= p50 <= p95,
and the output is deterministic given the batch. -/
theorem c8_percentile_summary (batch : List ℝ) (h2 : 2 ≤ batch.length) :
    calculate_percentiles batch =
      { p5 := npPercentile batch 5
      , p50 := npPercentile batch 50
      , p95 := npPercentile batch 95 } ∧
    (calculate_percentiles batch).p5 ≤ (calculate_percentiles batch).p50 ∧
    (calculate_percentiles batch).p50 ≤ (calculate_percentiles batch).p95 ∧
    ∀ batch2 : List ℝ, batch = batch2 →
      calculate_percentiles batch = calculate_percentiles batch2 := by
  refine ⟨rfl, ?_, ?_, fun b2 hb => by rw [hb]⟩
  · exact npPercentile_mono batch (by norm_num) (by norm_num) (by norm_num)
  · exact npPercentile_mono batch (by norm_num) (by norm_num) (by norm_num)

/-- Witness for C8 at the concrete batch [1, 2]. -/
theorem c8_witness :
    (calculate_percentiles ([1, 2] : List ℝ)).p5
      ≤ (calculate_percentiles ([1, 2] : List ℝ)).p50 :=
  (c8_percentile_summary [1, 2] (by norm_num)).2.1

/-! ### Claim C5 -/

/-- Claim C5: the risk classifier computes expectedReturn, downsideRisk
and upsidePotential as the stated ratios and classifies green iff
expectedReturn > 0.02 and vol < 0.05, else red iff expectedReturn < -0.02
or vol > 0.10, else yellow, in that order; with the three concrete
scenarios green / red / yellow. -/
theorem c5_risk_classifier (S0 p5v p50v p95v vol : ℝ) (hS0 : S0 > 0) :
    (calculate_risk_metrics S0 ⟨p5v, p50v, p95v⟩ vol).expected_return
        = (p50v - S0) / S0 ∧
    (calculate_risk_metrics S0 ⟨p5v, p50v, p95v⟩ vol).downside_risk
        = (S0 - p5v) / S0 ∧
    (calculate_risk_metrics S0 ⟨p5v, p50v, p95v⟩ vol).upside_potential
        = (p95v - S0) / S0 ∧
    ((calculate_risk_metrics S0 ⟨p5v, p50v, p95v⟩ vol).risk = "green"
        ↔ (p50v - S0) / S0 > 0.02 ∧ vol < 0.05) ∧
    ((calculate_risk_metrics S0 ⟨p5v, p50v, p95v⟩ vol).risk = "red"
        ↔ ¬((p50v - S0) / S0 > 0.02 ∧ vol < 0.05)
          ∧ ((p50v - S0) / S0 < -0.02 ∨ vol > 0.10)) ∧
    ((calculate_risk_metrics S0 ⟨p5v, p50v, p95v⟩ vol).risk = "yellow"
        ↔ ¬((p50v - S0) / S0 > 0.02 ∧ vol < 0.05)
          ∧ ¬((p50v - S0) / S0 < -0.02 ∨ vol > 0.10)) ∧
    (calculate_risk_metrics (100 : ℝ) ⟨97, 103, 105⟩ 0.04).risk = "green" ∧
    (calculate_risk_metrics (100 : ℝ) ⟨97, 97, 99⟩ 0.01).risk = "red" ∧
    (calculate_risk_metrics (100 : ℝ) ⟨95, 100, 104⟩ 0.07).risk = "yellow" := by
  have hrisk : (calculate_risk_metrics S0 ⟨p5v, p50v, p95v⟩ vol).risk
      = if (p50v - S0) / S0 > 0.02 ∧ vol < 0.05 then "green"
        else if (p50v - S0) / S0 < -0.02 ∨ vol > 0.10 then "red"
        else "yellow" := rfl
  refine ⟨rfl, rfl, rfl, ?_, ?_, ?_, ?_, ?_, ?_⟩
  · rw [hrisk]
    by_cases hA : (p50v - S0) / S0 > 0.02 ∧ vol < 0.05
    · rw [if_pos hA]; exact ⟨fun _ => hA, fun _ => rfl⟩
    · rw [if_neg hA]
      constructor
      · intro h
        by_cases hB : (p50v - S0) / S0 < -0.02 ∨ vol > 0.10
        · rw [if_pos hB] at h; exact absurd h (by decide)
        · rw [if_neg hB] at h; exact absurd h (by decide)
      · intro h; exact absurd h hA
  · rw [hrisk]
    by_cases hA : (p50v - S0) / S0 > 0.02 ∧ vol < 0.05
    · rw [if_pos hA]
      constructor
      · intro h; exact absurd h (by decide)
      · rintro ⟨hna, -⟩; exact absurd hA hna
    · rw [if_neg hA]
      by_cases hB : (p50v - S0) / S0 < -0.02 ∨ vol > 0.10
      · rw [if_pos hB]; exact ⟨fun _ => ⟨hA, hB⟩, fun _ => rfl⟩
      · rw [if_neg hB]
        constructor
        · intro h; exact absurd h (by decide)
        · rintro ⟨-, hb⟩; exact absurd hb hB
  · rw [hrisk]
    by_cases hA : (p50v - S0) / S0 > 0.02 ∧ vol < 0.05
    · rw [if_pos hA]
      constructor
      · intro h; exact absurd h (by decide)
      · rintro ⟨hna, -⟩; exact absurd hA hna
    · rw [if_neg hA]
      by_cases hB : (p50v - S0) / S0 < -0.02 ∨ vol > 0.10
      · rw [if_pos hB]
        constructor
        · intro h; exact absurd h (by decide)
        · rintro ⟨-, hnb⟩; exact absurd hB hnb
      · rw [if_neg hB]; exact ⟨fun _ => ⟨hA, hB⟩, fun _ => rfl⟩
  · rw [show (calculate_risk_metrics (100 : ℝ) ⟨97, 103, 105⟩ 0.04).risk
        = if ((103 : ℝ) - 100) / 100 > 0.02 ∧ (0.04 : ℝ) < 0.05 then "green"
          else if ((103 : ℝ) - 100) / 100 < -0.02 ∨ (0.04 : ℝ) > 0.10 then "red"
          else "yellow" from rfl]
    rw [if_pos (by norm_num)]
  · rw [show (calculate_risk_metrics (100 : ℝ) ⟨97, 97, 99⟩ 0.01).risk
        = if ((97 : ℝ) - 100) / 100 > 0.02 ∧ (0.01 : ℝ) < 0.05 then "green"
          else if ((97 : ℝ) - 100) / 100 < -0.02 ∨ (0.01 : ℝ) > 0.10 then "red"
          else "yellow" from rfl]
    rw [if_neg (by norm_num), if_pos (by norm_num)]
  · rw [show (calculate_risk_metrics (100 : ℝ) ⟨95, 100, 104⟩ 0.07).risk
        = if ((100 : ℝ) - 100) / 100 > 0.02 ∧ (0.07 : ℝ) < 0.05 then "green"
          else if ((100 : ℝ) - 100) / 100 < -0.02 ∨ (0.07 : ℝ) > 0.10 then "red"
          else "yellow" from rfl]
    rw [if_neg (by norm_num), if_neg (by norm_num)]

/-- Witness for C5 at S0 = 100, percentiles (97, 103, 105), vol 0.04. -/
theorem c5_witness :
    (calculate_risk_metrics (100 : ℝ) ⟨97, 103, 105⟩ 0.04).expected_return
      = ((103 : ℝ) - 100) / 100 :=
  (c5_risk_classifier 100 97 103 105 0.04 (by norm_num)).1

/-! ### Claim C3 -/

/-- Claim C3: the /predict handler calls generate_forecast without the
required current_prices argument, so every invocation raises TypeError
at call-binding time, which the handler maps to an HTTP 500 error; no
forecasting ever runs. -/
theorem c3_predict_always_500 (mc : MCSim) (fit : FitOracle)
    (exc : String → Bool) (rng : Rng) (request : ForecastRequest) :
    predict mc fit exc rng request = .error (500,
      "TypeError: generate_forecast missing 1 required positional argument: current_prices") := by
  unfold predict
  rw [if_neg (by decide)]

/-! ### Claim C9 -/

/-- Claim C9: with configured simulation count n and horizon hours, the
path simulator maps the n standard-normal draws through the GBM terminal
formula with dt = hours / (6.5 * 252), returning exactly n prices, and an
internal failure yields n copies of the current price instead of an
exception. -/
theorem c9_simulate_paths (n : ℕ) (hours S0 drift vol : ℝ) (zs : List ℝ)
    (hS0 : S0 > 0) (hlen : zs.length = n) :
    (simulate_paths (MCSim.init n hours) S0 drift vol (some zs)).length = n ∧
    simulate_paths (MCSim.init n hours) S0 drift vol (some zs) =
      zs.map (fun z => S0 * Real.exp
        ((drift * (hours / (6.5 * 252))
          - 0.5 * (vol * Real.sqrt (hours / (6.5 * 252))) ^ 2)
          + vol * Real.sqrt (hours / (6.5 * 252)) * z)) ∧
    simulate_paths (MCSim.init n hours) S0 drift vol none
      = List.replicate n S0 := by
  refine ⟨?_, rfl, rfl⟩
  simp [simulate_paths, hlen]

/-- Witness for C9 with one draw, 24-hour horizon, price 1. -/
theorem c9_witness :
    simulate_paths (MCSim.init 1 24) 1 0 0 none = List.replicate 1 1 :=
  (c9_simulate_paths 1 24 1 0 0 [0] (by norm_num) rfl).2.2
/-! ### GARCH estimate_volatility branch characterizations -/

theorem estimate_volatility_lt (st : GARCHState) (returns : List ℝ)
    (fit : FitOracle) (h : returns.length < 30) :
    estimate_volatility st returns fit
      = (st, max (sampleStd returns * Real.sqrt 252) 0.10) := by
  unfold estimate_volatility
  rw [if_pos h]

theorem estimate_volatility_ok (st : GARCHState) (returns : List ℝ)
    (fit : FitOracle) (v : ℝ) (h : ¬ returns.length < 30)
    (hfit : fit (returns.map (· * 100)) = .ok v) :
    estimate_volatility st returns fit
      = ({ model := some (returns.map (· * 100)), fitted_model := some v },
         npClip (Real.sqrt v / 100 * Real.sqrt 252) 0.02 1.0) := by
  unfold estimate_volatility
  rw [if_neg h]
  simp only [hfit]

theorem estimate_volatility_err (st : GARCHState) (returns : List ℝ)
    (fit : FitOracle) (h : ¬ returns.length < 30)
    (hfit : fit (returns.map (· * 100)) = .error ()) :
    estimate_volatility st returns fit
      = ({ model := some (returns.map (· * 100))
         , fitted_model := st.fitted_model },
         max (sampleStd returns * Real.sqrt 252) 0.15) := by
  unfold estimate_volatility
  rw [if_neg h]
  simp only [hfit]

/-! ### Claim C6 -/

/-- Claim C6: the volatility estimate is the annualized sample standard
deviation floored at 0.10 on fewer than 30 samples (hence at least 0.10);
lies in [0.02, 1.0] when the GARCH fit succeeds; and equals the
annualized sample standard deviation floored at 0.15 when the fit throws
(hence at least 0.15). -/
theorem c6_volatility_estimate (returns : List ℝ) (fit : FitOracle) :
    (returns.length < 30 →
      estimate_volatility_val returns fit
        = max (sampleStd returns * Real.sqrt 252) 0.10 ∧
      0.10 ≤ estimate_volatility_val returns fit) ∧
    (30 ≤ returns.length → ∀ v : ℝ, fit (returns.map (· * 100)) = .ok v →
      estimate_volatility_val returns fit
        = npClip (Real.sqrt v / 100 * Real.sqrt 252) 0.02 1.0 ∧
      0.02 ≤ estimate_volatility_val returns fit ∧
      estimate_volatility_val returns fit ≤ 1.0) ∧
    (30 ≤ returns.length → fit (returns.map (· * 100)) = .error () →
      estimate_volatility_val returns fit
        = max (sampleStd returns * Real.sqrt 252) 0.15 ∧
      0.15 ≤ estimate_volatility_val returns fit) := by
  refine ⟨fun hlt => ?_, fun hge v hfit => ?_, fun hge hfit => ?_⟩
  · unfold estimate_volatility_val
    rw [estimate_volatility_lt _ _ _ hlt]
    exact ⟨rfl, le_max_right _ _⟩
  · unfold estimate_volatility_val
    rw [estimate_volatility_ok _ _ _ v (not_lt.2 hge) hfit]
    refine ⟨rfl, ?_, ?_⟩
    · unfold npClip
      exact le_min (by norm_num) (le_max_left _ _)
    · unfold npClip
      exact min_le_left _ _
  · unfold estimate_volatility_val
    rw [estimate_volatility_err _ _ _ (not_lt.2 hge) hfit]
    exact ⟨rfl, le_max_right _ _⟩

/-- Witness for C6: all three paths at concrete inputs (1 sample; 30
samples with a succeeding fit; 30 samples with a failing fit). -/
theorem c6_witness :
    0.10 ≤ estimate_volatility_val [0.01] fit_always_fails ∧
    0.02 ≤ estimate_volatility_val (List.replicate 30 0) fit_const_variance ∧
    0.15 ≤ estimate_volatility_val (List.replicate 30 0) fit_always_fails :=
  ⟨((c6_volatility_estimate [0.01] fit_always_fails).1 (by norm_num)).2,
   ((c6_volatility_estimate (List.replicate 30 0) fit_const_variance).2.1
      (by simp) 1 rfl).2.1,
   ((c6_volatility_estimate (List.replicate 30 0) fit_always_fails).2.2
      (by simp) rfl).2⟩

/-! ### Claim C7 -/

/-- Claim C7 counterexample: a supplied price of -5 with non-empty
history IS used as the working price (the code only replaces a price
that compares equal to 0.0), refuting the claim that a non-positive
supplied price is never used. -/
theorem c7_counterexample :
    workingPrice (-5) [1, 2] = -5 ∧ (-5 : ℝ) < 0 := by
  constructor
  · unfold workingPrice
    rw [if_neg]
    rintro ⟨h, -⟩
    norm_num at h
  · norm_num

/-- Claim C7 amended: the working current price is the supplied price
whenever it is nonzero (negative prices included); when the supplied
price is zero it is the last historical price if history is non-empty,
else zero, in which case the single-ticker helper falls back to the
default forecast at price 100.0. -/
theorem c7_amended (current_price : ℝ) (hist : List ℝ) :
    (current_price ≠ 0 → workingPrice current_price hist = current_price) ∧
    (current_price = 0 → hist ≠ [] →
      workingPrice current_price hist = hist.getLastD 0) ∧
    (current_price = 0 → hist = [] → workingPrice current_price hist = 0) ∧
    ∀ (mc : MCSim) (fit : FitOracle) (fuel : ℕ) (t : String) (rng : Rng),
      workingPrice current_price hist = 0 →
      forecast_single_ticker mc fit (fuel + 1) t current_price hist rng
        = default_forecast mc fit fuel t 100.0 rng := by
  refine ⟨fun hne => ?_, fun hz hne => ?_, fun hz he => ?_, ?_⟩
  · unfold workingPrice
    rw [if_neg]
    rintro ⟨h, -⟩
    exact hne h
  · unfold workingPrice
    rw [if_pos ⟨hz, hne⟩]
  · unfold workingPrice
    rw [if_neg]
    · exact hz
    · rintro ⟨-, h⟩
      exact h he
  · intro mc fit fuel t rng hwp
    simp only [forecast_single_ticker]
    rw [hwp, if_pos rfl]

/-- Witness for C7 amended at supplied price -5 and history [1, 2]. -/
theorem c7_witness : workingPrice (-5) [1, 2] = (-5 : ℝ) :=
  (c7_amended (-5) [1, 2]).1 (by norm_num)

/-! ### Claim C10 -/

/-- The estimate returned by GARCHModel.estimate_volatility does not
depend on the incoming instance state (only the state halves differ). -/
theorem estimate_volatility_state_irrelevant (st st2 : GARCHState)
    (returns : List ℝ) (fit : FitOracle) :
    (estimate_volatility st returns fit).2
      = (estimate_volatility st2 returns fit).2 := by
  by_cases h : returns.length < 30
  · rw [estimate_volatility_lt st returns fit h,
      estimate_volatility_lt st2 returns fit h]
  · cases hf : fit (returns.map (· * 100)) with
    | ok v =>
        rw [estimate_volatility_ok st returns fit v h hf,
          estimate_volatility_ok st2 returns fit v h hf]
    | error e =>
        cases e
        rw [estimate_volatility_err st returns fit h hf,
          estimate_volatility_err st2 returns fit h hf]

/-- Claim C10 counterexample: one ≥ 30-sample estimation on a fresh
GARCHModel mutates its fields (model becomes the scaled return series),
so component state is NOT identical across successive invocations. -/
theorem c10_counterexample :
    (estimate_volatility GARCHState.init (List.replicate 30 1)
        fit_const_variance).1 ≠ GARCHState.init := by
  intro h
  rw [estimate_volatility_ok GARCHState.init (List.replicate 30 1)
    fit_const_variance 1 (by simp) rfl] at h
  have hm := congrArg GARCHState.model h
  simp [GARCHState.init] at hm

/-- Claim C10 amended: the Monte Carlo simulator and orchestrator keep no
state, and the GARCH estimator's returned value is state-independent, but
estimate_volatility mutates the GARCHModel fields on every primary-path
call (≥ 30 returns): model is overwritten with the scaled return series,
and fitted_model with the fit result when the fit succeeds; only the
< 30-sample fallback leaves the instance untouched. -/
theorem c10_amended (st : GARCHState) (returns : List ℝ) (fit : FitOracle) :
    (returns.length < 30 → (estimate_volatility st returns fit).1 = st) ∧
    (30 ≤ returns.length →
      (estimate_volatility st returns fit).1.model
        = some (returns.map (· * 100)) ∧
      (∀ v : ℝ, fit (returns.map (· * 100)) = .ok v →
        (estimate_volatility st returns fit).1.fitted_model = some v) ∧
      (fit (returns.map (· * 100)) = .error () →
        (estimate_volatility st returns fit).1.fitted_model
          = st.fitted_model)) ∧
    ∀ st2, (estimate_volatility st returns fit).2
      = (estimate_volatility st2 returns fit).2 := by
  refine ⟨fun hlt => ?_, fun hge => ?_, fun st2 =>
    estimate_volatility_state_irrelevant st st2 returns fit⟩
  · rw [estimate_volatility_lt st returns fit hlt]
  · refine ⟨?_, fun v hfit => ?_, fun hfit => ?_⟩
    · cases hf : fit (returns.map (· * 100)) with
      | ok v => rw [estimate_volatility_ok st returns fit v (not_lt.2 hge) hf]
      | error e =>
          cases e
          rw [estimate_volatility_err st returns fit (not_lt.2 hge) hf]
    · rw [estimate_volatility_ok st returns fit v (not_lt.2 hge) hfit]
    · rw [estimate_volatility_err st returns fit (not_lt.2 hge) hfit]

/-- Witness for C10 amended: a < 30-sample call leaves a fresh instance
unchanged. -/
theorem c10_witness :
    (estimate_volatility GARCHState.init [] fit_always_fails).1
      = GARCHState.init :=
  (c10_amended GARCHState.init [] fit_always_fails).1 (by simp)

/-! ### Orchestrator unfolding and symbol-preservation lemmas -/

theorem forecast_single_ticker_zero (mc : MCSim) (fit : FitOracle)
    (ticker : String) (cp : ℝ) (hist : List ℝ) (rng : Rng) :
    forecast_single_ticker mc fit 0 ticker cp hist rng
      = (fuelOut ticker cp, rng) := by
  simp only [forecast_single_ticker]

theorem forecast_single_ticker_succ (mc : MCSim) (fit : FitOracle) (fuel : ℕ)
    (ticker : String) (cp : ℝ) (hist : List ℝ) (rng : Rng) :
    forecast_single_ticker mc fit (fuel + 1) ticker cp hist rng
      = (if workingPrice cp hist = 0 then
           default_forecast mc fit fuel ticker 100.0 rng
         else if hist.length < 2 then
           default_forecast mc fit fuel ticker (workingPrice cp hist) rng
         else if (calculate_returns hist).length = 0 then
           default_forecast mc fit fuel ticker (workingPrice cp hist) rng
         else run_pipeline mc fit ticker (workingPrice cp hist)
           (calculate_returns hist) rng) := by
  simp only [forecast_single_ticker]

theorem default_forecast_eq (mc : MCSim) (fit : FitOracle) (fuel : ℕ)
    (ticker : String) (p : ℝ) (rng : Rng) :
    default_forecast mc fit fuel ticker p rng
      = forecast_single_ticker mc fit fuel ticker p
          (syntheticHistory p (rng.uniform 0.15 0.35).1
            (((rng.uniform 0.15 0.35).2.take 60).1))
          (((rng.uniform 0.15 0.35).2.take 60).2) := by
  simp only [default_forecast]

theorem run_pipeline_symbol (mc : MCSim) (fit : FitOracle) (ticker : String)
    (cp : ℝ) (returns : List ℝ) (rng : Rng) :
    (run_pipeline mc fit ticker cp returns rng).1.symbol = ticker := rfl

theorem forecast_single_ticker_symbol (mc : MCSim) (fit : FitOracle) :
    ∀ (fuel : ℕ) (ticker : String) (cp : ℝ) (hist : List ℝ) (rng : Rng),
      (forecast_single_ticker mc fit fuel ticker cp hist rng).1.symbol
        = ticker := by
  intro fuel
  induction fuel with
  | zero =>
      intro t cp hist rng
      rw [forecast_single_ticker_zero]
      rfl
  | succ fuel ih =>
      intro t cp hist rng
      have hdef : ∀ (p : ℝ) (r : Rng),
          (default_forecast mc fit fuel t p r).1.symbol = t := by
        intro p r
        rw [default_forecast_eq]
        exact ih t p _ _
      rw [forecast_single_ticker_succ]
      by_cases h1 : workingPrice cp hist = 0
      · rw [if_pos h1]; exact hdef _ _
      · rw [if_neg h1]
        by_cases h2 : hist.length < 2
        · rw [if_pos h2]; exact hdef _ _
        · rw [if_neg h2]
          by_cases h3 : (calculate_returns hist).length = 0
          · rw [if_pos h3]; exact hdef _ _
          · rw [if_neg h3]; rfl

theorem default_forecast_symbol (mc : MCSim) (fit : FitOracle) (fuel : ℕ)
    (ticker : String) (p : ℝ) (rng : Rng) :
    (default_forecast mc fit fuel ticker p rng).1.symbol = ticker := by
  rw [default_forecast_eq]
  exact forecast_single_ticker_symbol mc fit fuel ticker p _ _

theorem generate_forecast_go_length (mc : MCSim) (fit : FitOracle)
    (exc : String → Bool) (cps : String → Option ℝ)
    (hd : String → Option (List ℝ)) :
    ∀ (tickers : List String) (rng : Rng),
      (generate_forecast_go mc fit exc cps hd tickers rng).1.length
        = tickers.length := by
  intro tickers
  induction tickers with
  | nil => intro rng; rfl
  | cons t rest ih =>
      intro rng
      simp only [generate_forecast_go]
      simp [ih]

theorem generate_forecast_go_symbol (mc : MCSim) (fit : FitOracle)
    (exc : String → Bool) (cps : String → Option ℝ)
    (hd : String → Option (List ℝ)) :
    ∀ (tickers : List String) (rng : Rng) (i : ℕ), i < tickers.length →
      (((generate_forecast_go mc fit exc cps hd tickers rng).1.getD i
          (fuelOut "" 0)).symbol)
        = tickers.getD i "" := by
  intro tickers
  induction tickers with
  | nil => intro rng i hi; simp at hi
  | cons t rest ih =>
      intro rng i hi
      cases i with
      | zero =>
          simp only [generate_forecast_go]
          by_cases hexc : exc t
          · simp [hexc, default_forecast_symbol]
          · simp [hexc, forecast_single_ticker_symbol]
      | succ i =>
          simp only [generate_forecast_go]
          have hi' : i < rest.length := by simpa using hi
          simpa using ih _ i hi'

/-! ### Claim C2 -/

/-- Claim C2: for every ticker list of length between 1 and 50 and any
price/history mappings, the orchestrator returns exactly one forecast per
input ticker, in input order, with the i-th forecast's symbol equal to
the i-th ticker, whatever the per-ticker exception pattern is; never
raising is reflected by generate_forecast being a total function into
ForecastOutput. -/
theorem c2_orchestrator_shape (mc : MCSim) (fit : FitOracle)
    (exc : String → Bool) (tickers : List String)
    (cps : String → Option ℝ) (hd : String → Option (List ℝ)) (rng : Rng)
    (hlow : 1 ≤ tickers.length) (hhigh : tickers.length ≤ 50) :
    (generate_forecast mc fit exc tickers cps hd rng).forecasts.length
      = tickers.length ∧
    ∀ i, i < tickers.length →
      ((generate_forecast mc fit exc tickers cps hd rng).forecasts.getD i
          (fuelOut "" 0)).symbol
        = tickers.getD i "" := by
  constructor
  · exact generate_forecast_go_length mc fit exc cps hd tickers rng
  · intro i hi
    exact generate_forecast_go_symbol mc fit exc cps hd tickers rng i hi

/-- Witness for C2: singleton ticker list with every forecast failing. -/
theorem c2_witness :
    (generate_forecast mc_default fit_always_fails (fun _ => true) ["A"]
        (fun _ => none) (fun _ => none) zeroRng).forecasts.length = 1 :=
  (c2_orchestrator_shape mc_default fit_always_fails (fun _ => true) ["A"]
    (fun _ => none) (fun _ => none) zeroRng (by norm_num) (by norm_num)).1

/-! ### Random stream and synthetic-history lemmas -/

theorem zeroRng_drop (n : ℕ) : zeroRng.drop n = zeroRng := rfl

theorem zeroRng_take (n : ℕ) :
    zeroRng.take n = (List.replicate n 0, zeroRng) := by
  unfold Rng.take
  rw [zeroRng_drop]
  have h : (List.range n).map zeroRng.seq = List.replicate n (0:ℝ) := by
    have := List.map_const' (List.range n) (0:ℝ)
    simpa [zeroRng] using this
  rw [h]

theorem zeroRng_uniform : zeroRng.uniform 0.15 0.35 = (0.15, zeroRng) := by
  unfold Rng.uniform
  rw [zeroRng_drop]
  have h : (0.15 : ℝ) + (0.35 - 0.15) * clamp01 (zeroRng.seq 0) = 0.15 := by
    simp [zeroRng, clamp01]
  rw [h]

theorem uniform_draw_mem (rng : Rng) (a b : ℝ) (hab : a ≤ b) :
    a ≤ (rng.uniform a b).1 ∧ (rng.uniform a b).1 ≤ b := by
  have h0 : (0:ℝ) ≤ clamp01 (rng.seq 0) := le_max_left _ _
  have h1 : clamp01 (rng.seq 0) ≤ 1 := by
    unfold clamp01
    exact max_le (by norm_num) (min_le_left _ _)
  have hval : (rng.uniform a b).1 = a + (b - a) * clamp01 (rng.seq 0) := rfl
  rw [hval]
  constructor
  · nlinarith
  · nlinarith

theorem getLastD_scanl (f : ℝ → ℝ → ℝ) :
    ∀ (l : List ℝ) (b d : ℝ), (List.scanl f b l).getLastD d = l.foldl f b := by
  intro l
  induction l with
  | nil => intro b d; simp [List.scanl_nil]
  | cons a t ih =>
      intro b d
      rw [List.scanl_cons, List.foldl_cons]
      have hc : ([b] ++ List.scanl f (f b a) t)
          = b :: List.scanl f (f b a) t := rfl
      rw [hc, List.getLastD_cons]
      exact ih (f b a) b

theorem gbmStep_zero (u p : ℝ) :
    gbmStep u p 0 = p * Real.exp ((0.05 - 0.5 * u ^ 2) * (1 / 252)) := by
  simp [gbmStep]

theorem foldl_gbm_zero (u : ℝ) :
    ∀ (n : ℕ) (p : ℝ),
      List.foldl (fun last z => gbmStep u last z) p (List.replicate n 0)
        = p * (Real.exp ((0.05 - 0.5 * u ^ 2) * (1 / 252))) ^ n := by
  intro n
  induction n with
  | zero => intro p; simp
  | succ n ih =>
      intro p
      rw [List.replicate_succ, List.foldl_cons, ih, gbmStep_zero]
      ring

/-! ### calculate_returns lemmas -/

theorem calculate_returns_eq (prices : List ℝ) :
    calculate_returns prices
      = List.zipWith (fun a b => Real.log b - Real.log a) prices prices.tail := by
  unfold calculate_returns
  by_cases h : prices.length < 2
  · rw [if_pos h]
    match prices, h with
    | [], _ => rfl
    | [a], _ => rfl
  · rw [if_neg h]
    show List.zipWith (fun a b => b - a) (prices.map Real.log)
        (prices.map Real.log).tail = _
    have htail : (prices.map Real.log).tail = prices.tail.map Real.log := by
      cases prices <;> rfl
    rw [htail, List.zipWith_map]

theorem calculate_returns_cons₂ (a b : ℝ) (t : List ℝ) :
    calculate_returns (a :: b :: t)
      = (Real.log b - Real.log a) :: calculate_returns (b :: t) := by
  rw [calculate_returns_eq, calculate_returns_eq]
  rfl

theorem calculate_returns_cons_scanl (f : ℝ → ℝ → ℝ) (a q : ℝ) (l : List ℝ) :
    calculate_returns (a :: List.scanl f q l)
      = (Real.log q - Real.log a) :: calculate_returns (List.scanl f q l) := by
  cases l with
  | nil => rw [List.scanl_nil]; exact calculate_returns_cons₂ a q []
  | cons z t =>
      rw [List.scanl_cons]
      exact calculate_returns_cons₂ a q _

theorem returns_synthetic_zero (u : ℝ) :
    ∀ (n : ℕ) (p : ℝ), 0 < p →
      calculate_returns
          (List.scanl (fun last z => gbmStep u last z) p (List.replicate n 0))
        = List.replicate n ((0.05 - 0.5 * u ^ 2) * (1 / 252)) := by
  intro n
  induction n with
  | zero =>
      intro p hp
      rw [List.replicate, List.scanl_nil]
      rfl
  | succ n ih =>
      intro p hp
      rw [List.replicate_succ, List.scanl_cons]
      have hcons : ([p] ++ List.scanl (fun last z => gbmStep u last z)
          (gbmStep u p 0) (List.replicate n 0))
          = p :: List.scanl (fun last z => gbmStep u last z)
              (gbmStep u p 0) (List.replicate n 0) := rfl
      rw [hcons, calculate_returns_cons_scanl]
      have hstep_pos : 0 < gbmStep u p 0 := by
        rw [gbmStep_zero]
        positivity
      rw [ih (gbmStep u p 0) hstep_pos]
      have hlog : Real.log (gbmStep u p 0) - Real.log p
          = (0.05 - 0.5 * u ^ 2) * (1 / 252) := by
        rw [gbmStep_zero, Real.log_mul (ne_of_gt hp) (Real.exp_ne_zero _),
          Real.log_exp]
        ring
      rw [hlog, List.replicate_succ]

/-! ### Constant-series statistics -/

theorem sampleStd_replicate (n : ℕ) (hn : n ≠ 0) (c : ℝ) :
    sampleStd (List.replicate n c) = 0 := by
  have hnne : ((n : ℝ)) ≠ 0 := Nat.cast_ne_zero.2 hn
  have hval : sampleStd (List.replicate n c)
      = Real.sqrt (((List.replicate n c).map
          (fun x => (x - (List.replicate n c).sum
            / ((List.replicate n c).length : ℝ)) ^ 2)).sum
          / ((List.replicate n c).length : ℝ)) := rfl
  have hlen : ((List.replicate n c).length : ℝ) = (n : ℝ) := by simp
  have hmean : (List.replicate n c).sum / ((List.replicate n c).length : ℝ)
      = c := by
    rw [List.sum_replicate, nsmul_eq_mul, hlen]
    field_simp
  rw [hval, hmean, List.map_replicate]
  simp

theorem estimate_volatility_val_const_fail (n : ℕ) (hn : 30 ≤ n) (hne : n ≠ 0)
    (c : ℝ) :
    estimate_volatility_val (List.replicate n c) fit_always_fails = 0.15 := by
  unfold estimate_volatility_val
  rw [estimate_volatility_err _ _ _ (by simp; omega) rfl]
  show max (sampleStd (List.replicate n c) * Real.sqrt 252) 0.15 = 0.15
  rw [sampleStd_replicate n hne c, zero_mul]
  exact max_eq_right (by norm_num)

/-! ### Pipeline projection lemmas -/

theorem run_pipeline_fields (mc : MCSim) (fit : FitOracle) (ticker : String)
    (cp : ℝ) (returns : List ℝ) (rng : Rng) :
    (run_pipeline mc fit ticker cp returns rng).1.volatility
      = estimate_volatility_val returns fit ∧
    (run_pipeline mc fit ticker cp returns rng).1.risk
      = (calculate_risk_metrics cp
          (calculate_percentiles
            (simulate_paths mc cp (estimate_drift returns true)
              (estimate_volatility_val returns fit)
              (some (rng.take mc.num_simulations).1)))
          (estimate_volatility_val returns fit)).risk :=
  ⟨rfl, rfl⟩

theorem risk_red_of_vol_015 (cp : ℝ) (pc : Percentiles ℝ) :
    (calculate_risk_metrics cp pc (0.15 : ℝ)).risk = "red" := by
  show (if (pc.p50 - cp) / cp > 0.02 ∧ (0.15 : ℝ) < 0.05 then "green"
    else if (pc.p50 - cp) / cp < -0.02 ∨ (0.15 : ℝ) > 0.10 then "red"
    else "yellow") = "red"
  rw [if_neg, if_pos]
  · exact Or.inr (by norm_num)
  · rintro ⟨-, h⟩
    norm_num at h

theorem generate_forecast_forecasts (mc : MCSim) (fit : FitOracle)
    (exc : String → Bool) (tickers : List String)
    (cps : String → Option ℝ) (hd : String → Option (List ℝ)) (rng : Rng) :
    (generate_forecast mc fit exc tickers cps hd rng).forecasts
      = (generate_forecast_go mc fit exc cps hd tickers rng).1 := rfl

theorem workingPrice_of_ne (cp : ℝ) (hist : List ℝ) (h : cp ≠ 0) :
    workingPrice cp hist = cp := by
  unfold workingPrice
  rw [if_neg]
  rintro ⟨hz, -⟩
  exact h hz

/-! ### Claim C4 -/

/-- Claim C4 counterexample: with the all-zero random stream (uniform
volatility draw 0.15, all shocks 0), the history synthesized for resolved
price 50 does NOT end at 50: the code seeds the series WITH the current
price and appends 60 upward-drifting GBM steps after it. -/
theorem c4_counterexample :
    (syntheticHistory 50 ((zeroRng.uniform 0.15 0.35).1)
        (((zeroRng.uniform 0.15 0.35).2.take 60).1)).getLastD 0 ≠ 50 := by
  rw [zeroRng_uniform]
  show (syntheticHistory 50 0.15 ((zeroRng.take 60).1)).getLastD 0 ≠ 50
  rw [zeroRng_take]
  show (syntheticHistory 50 0.15 (List.replicate 60 0)).getLastD 0 ≠ 50
  unfold syntheticHistory
  rw [getLastD_scanl, foldl_gbm_zero]
  have hE : 1 < Real.exp ((0.05 - 0.5 * (0.15 : ℝ) ^ 2) * (1 / 252)) :=
    Real.one_lt_exp_iff.mpr (by norm_num)
  have hpow : 1 < (Real.exp ((0.05 - 0.5 * (0.15 : ℝ) ^ 2) * (1 / 252))) ^ 60 :=
    one_lt_pow₀ hE (by norm_num)
  intro h
  nlinarith

/-- Claim C4 amended: the synthetic history is a 60-step daily GBM series
with volatility drawn uniformly from [0.15, 0.35] and 5% annual drift,
anchored so that the FIRST element (not the last) equals the resolved
price, and the normal pipeline is then re-entered on this synthetic
history. -/
theorem c4_amended (mc : MCSim) (fit : FitOracle) (fuel : ℕ) (ticker : String)
    (p vol z : ℝ) (rest shocks : List ℝ) (rng : Rng) :
    (syntheticHistory p vol shocks).length = shocks.length + 1 ∧
    (syntheticHistory p vol shocks).headI = p ∧
    syntheticHistory p vol (z :: rest)
      = p :: syntheticHistory (gbmStep vol p z) vol rest ∧
    gbmStep vol p z
      = p * Real.exp ((0.05 - 0.5 * vol ^ 2) * (1 / 252)
          + vol * Real.sqrt (1 / 252) * z) ∧
    (0.15 ≤ (rng.uniform 0.15 0.35).1 ∧ (rng.uniform 0.15 0.35).1 ≤ 0.35) ∧
    ((rng.uniform 0.15 0.35).2.take 60).1.length = 60 ∧
    default_forecast mc fit fuel ticker p rng
      = forecast_single_ticker mc fit fuel ticker p
          (syntheticHistory p (rng.uniform 0.15 0.35).1
            (((rng.uniform 0.15 0.35).2.take 60).1))
          (((rng.uniform 0.15 0.35).2.take 60).2) := by
  refine ⟨?_, ?_, ?_, rfl, uniform_draw_mem rng 0.15 0.35 (by norm_num), ?_,
    default_forecast_eq mc fit fuel ticker p rng⟩
  · unfold syntheticHistory
    rw [List.length_scanl]
  · unfold syntheticHistory
    cases shocks <;> rfl
  · unfold syntheticHistory
    rw [List.scanl_cons]
    rfl
  · simp [Rng.take]

/-! ### Claim C1 -/

/-- Claim C1 amended: a failing forecast attempt is replaced by the
synthetic-data forecast of _default_forecast, not by a static tuple: the
insufficient-data path hands the resolved price to _default_forecast,
the orchestrator's exception path does the same with
current_prices.get(ticker, 100.0), and _default_forecast draws a random
volatility, synthesizes a GBM history anchored at the price and re-runs
the full single-ticker pipeline on it. -/
theorem c1_amended (mc : MCSim) (fit : FitOracle) (fuel : ℕ) (t : String)
    (cp : ℝ) (hist : List ℝ) (rng : Rng) :
    (cp ≠ 0 → hist.length < 2 →
      forecast_single_ticker mc fit (fuel + 1) t cp hist rng
        = default_forecast mc fit fuel t cp rng) ∧
    (∀ (exc : String → Bool) (cps : String → Option ℝ)
        (hd : String → Option (List ℝ)) (rest : List String),
      exc t = true →
      (generate_forecast_go mc fit exc cps hd (t :: rest) rng).1
        = (default_forecast mc fit 3 t ((cps t).getD 100.0) rng).1
          :: (generate_forecast_go mc fit exc cps hd rest
               (default_forecast mc fit 3 t ((cps t).getD 100.0) rng).2).1) ∧
    default_forecast mc fit fuel t cp rng
      = forecast_single_ticker mc fit fuel t cp
          (syntheticHistory cp (rng.uniform 0.15 0.35).1
            (((rng.uniform 0.15 0.35).2.take 60).1))
          (((rng.uniform 0.15 0.35).2.take 60).2) := by
  refine ⟨fun hcp hlen => ?_, fun exc cps hd rest hexc => ?_,
    default_forecast_eq mc fit fuel t cp rng⟩
  · rw [forecast_single_ticker_succ, workingPrice_of_ne cp hist hcp,
      if_neg hcp, if_pos hlen]
  · simp only [generate_forecast_go]
    simp [hexc]

/-- Witness for C1 amended: the XYZ scenario (price 50, empty history)
takes the insufficient-data path into _default_forecast. -/
theorem c1_witness :
    forecast_single_ticker mc_default fit_always_fails (2 + 1) "XYZ" 50 []
        zeroRng
      = default_forecast mc_default fit_always_fails 2 "XYZ" 50 zeroRng :=
  (c1_amended mc_default fit_always_fails 2 "XYZ" 50 [] zeroRng).1
    (by norm_num) (by norm_num)

/-- Claim C1 counterexample: in the XYZ scenario (currentPrice 50, empty
history) run with the all-zero random stream and a failing GARCH fit, the
orchestrator emits a forecast with risk "red" (the synthetic pipeline
yields volatility 0.15 > 0.10), not the claimed default tuple with risk
"yellow". -/
theorem c1_counterexample :
    ((generate_forecast mc_default fit_always_fails (fun _ => false) ["XYZ"]
        (fun s => if s = "XYZ" then some 50 else none) (fun _ => none)
        zeroRng).forecasts.map TickerForecast.risk) = ["red"] ∧
    ((generate_forecast mc_default fit_always_fails (fun _ => false) ["XYZ"]
        (fun s => if s = "XYZ" then some 50 else none) (fun _ => none)
        zeroRng).forecasts.map TickerForecast.risk) ≠ ["yellow"] := by
  have hsynth_ret : calculate_returns
      (syntheticHistory 50 0.15 (List.replicate 60 0))
      = List.replicate 60 ((0.05 - 0.5 * (0.15 : ℝ) ^ 2) * (1 / 252)) := by
    unfold syntheticHistory
    exact returns_synthetic_zero 0.15 60 50 (by norm_num)
  have hvol : estimate_volatility_val
      (calculate_returns (syntheticHistory 50 0.15 (List.replicate 60 0)))
      fit_always_fails = 0.15 := by
    rw [hsynth_ret]
    exact estimate_volatility_val_const_fail 60 (by norm_num) (by norm_num) _
  have hlen : (syntheticHistory 50 0.15 (List.replicate 60 0)).length = 61 := by
    unfold syntheticHistory
    rw [List.length_scanl]
    simp
  have h1 : forecast_single_ticker mc_default fit_always_fails 3 "XYZ" 50 []
      zeroRng = default_forecast mc_default fit_always_fails 2 "XYZ" 50
      zeroRng := by
    have h := forecast_single_ticker_succ mc_default fit_always_fails 2 "XYZ"
      50 [] zeroRng
    rw [show (2 + 1) = 3 from rfl] at h
    rw [h, workingPrice_of_ne 50 [] (by norm_num),
      if_neg (by norm_num : ¬(50 : ℝ) = 0),
      if_pos (by norm_num : ([] : List ℝ).length < 2)]
  have h2 : default_forecast mc_default fit_always_fails 2 "XYZ" 50 zeroRng
      = forecast_single_ticker mc_default fit_always_fails 2 "XYZ" 50
          (syntheticHistory 50 0.15 (List.replicate 60 0)) zeroRng := by
    rw [default_forecast_eq, zeroRng_uniform]
    show forecast_single_ticker mc_default fit_always_fails 2 "XYZ" 50
        (syntheticHistory 50 0.15 ((zeroRng.take 60).1))
        ((zeroRng.take 60).2) = _
    rw [zeroRng_take]
  have h3 : forecast_single_ticker mc_default fit_always_fails 2 "XYZ" 50
      (syntheticHistory 50 0.15 (List.replicate 60 0)) zeroRng
      = run_pipeline mc_default fit_always_fails "XYZ" 50
          (calculate_returns (syntheticHistory 50 0.15 (List.replicate 60 0)))
          zeroRng := by
    have h := forecast_single_ticker_succ mc_default fit_always_fails 1 "XYZ"
      50 (syntheticHistory 50 0.15 (List.replicate 60 0)) zeroRng
    rw [show (1 + 1) = 2 from rfl] at h
    rw [h, workingPrice_of_ne _ _ (by norm_num : (50 : ℝ) ≠ 0),
      if_neg (by norm_num : ¬(50 : ℝ) = 0),
      if_neg (by rw [hlen]; norm_num),
      if_neg (by rw [hsynth_ret]; simp)]
  have hrisk : (forecast_single_ticker mc_default fit_always_fails 3 "XYZ" 50
      [] zeroRng).1.risk = "red" := by
    rw [h1, h2, h3,
      (run_pipeline_fields mc_default fit_always_fails "XYZ" 50 _ zeroRng).2,
      hvol]
    exact risk_red_of_vol_015 _ _
  have hmain : ((generate_forecast mc_default fit_always_fails (fun _ => false)
      ["XYZ"] (fun s => if s = "XYZ" then some 50 else none) (fun _ => none)
      zeroRng).forecasts.map TickerForecast.risk) = ["red"] := by
    rw [generate_forecast_forecasts]
    simp only [generate_forecast_go]
    simp only [List.map]
    norm_num
    exact hrisk
  exact ⟨hmain, by rw [hmain]; decide⟩
